import Mathlib

/-!
Shallow embedding of the TaxClaw document-processing pipeline
(src/ai.py, src/classify.py, src/extract.py, src/store.py,
src/exporter.py, src/main.py) and proofs about the spec's claims.

JSON values returned by the model gateway are modelled by `JValue`;
Python dicts are association lists with insertion-order semantics.
Python floats in the source carry only decimal constants, so numbers
are modelled as rationals.
-/

/-- A JSON value as handled by the Python code (None / bool / number /
string / list / dict). -/
inductive JValue where
  | jnull : JValue
  | jbool (b : Bool) : JValue
  | jnum (q : ℚ) : JValue
  | jstr (s : String) : JValue
  | jarr (xs : List JValue) : JValue
  | jobj (fields : List (String × JValue)) : JValue

/-- A Python dict with string keys, in insertion order. -/
abbrev JDict := List (String × JValue)

namespace JValue

/-- `isinstance(v, dict)`. -/
def isDict : JValue → Bool
  | jobj _ => true
  | _ => false

/-- `isinstance(v, list)`. -/
def isList : JValue → Bool
  | jarr _ => true
  | _ => false

/-- Python truthiness of a JSON value (`bool(v)`). -/
def pyTruthy : JValue → Bool
  | jnull => false
  | jbool b => b
  | jnum q => decide (q ≠ 0)
  | jstr s => decide (s ≠ "")
  | jarr xs => !xs.isEmpty
  | jobj fs => !fs.isEmpty

/-- Python `a or b` on JSON values. -/
def pyOr (a b : JValue) : JValue :=
  if a.pyTruthy then a else b

end JValue

/-- Dict lookup: value of the first entry with the given key
(`d[k]` / `d.get(k)` with a present key; `none` plays Python's
"key absent"). -/
def dlookup (d : JDict) (k : String) : Option JValue :=
  (d.find? (fun kv => kv.1 = k)).map (·.2)

/-- Python `d[k] = v`: replace the key's slot in place if it exists
(dict keys are unique, so the first occurrence is the slot), else
append a new entry. -/
def dinsert : JDict → String → JValue → JDict
  | [], k, v => [(k, v)]
  | kv :: rest, k, v => if kv.1 = k then (k, v) :: rest else kv :: dinsert rest k v

/-- `d.get(k)` on a `JValue` known to be a dict: `jnull` plays Python's
`None` for an absent key (the code only calls `.get` behind an
`isinstance(out, dict)` guard). -/
def JValue.objGet : JValue → String → Option JValue
  | .jobj fs, k => dlookup fs k
  | _, _ => none

/-- `v is None`. -/
def JValue.isNull : JValue → Bool
  | .jnull => true
  | _ => false

/-- True when a dict slot would be overwritten by
`_merge_page_dicts`: the key is absent or holds `None`. -/
def isNullSlot : Option JValue → Bool
  | none => true
  | some v => v.isNull

/-- `src/extract.py` `_merge_page_dicts(base, update)`: copy `base`,
then for each `(k, v)` of `update` in order set `result[k] = v` only if
`k not in result or result[k] is None`. -/
def mergePageDicts (base upd : JDict) : JDict :=
  upd.foldl (fun acc kv => if isNullSlot (dlookup acc kv.1) then dinsert acc kv.1 kv.2 else acc) base

/-- The transactions contributed by one page's model output in the
1099-DA branch of `extract_document`:
`page_txns = (out.get("transactions") or []) if isinstance(out, dict) else []`,
extended into the accumulator only `if isinstance(page_txns, list)`. -/
def pageTxns (out : JValue) : List JValue :=
  if out.isDict then
    match ((out.objGet "transactions").getD .jnull).pyOr (.jarr []) with
    | .jarr xs => xs
    | _ => []
  else []

/-- One step of the 1099-DA page loop for the header:
`if header is None and isinstance(out, dict): header = out.get("header") or {}`. -/
def daHeaderStep (header : Option JValue) (out : JValue) : Option JValue :=
  match header with
  | none => if out.isDict then some (((out.objGet "header").getD .jnull).pyOr (.jobj [])) else none
  | some h => some h

/-- The per-page loop of the `doc_type == "1099-DA"` branch of
`extract_document`, over the list of per-page model outputs. -/
def daLoop : List JValue → Option JValue → List JValue → Option JValue × List JValue
  | [], header, txns => (header, txns)
  | out :: rest, header, txns =>
      daLoop rest (daHeaderStep header out) (txns ++ pageTxns out)

/-- `src/extract.py` `extract_document` for form type 1099-DA, as a
function of the per-page model-gateway outputs: returns
`{"header": header or {}, "transactions": txns, "is_multi_transaction": len(txns) > 1}`. -/
def extractDA (outs : List JValue) : JValue :=
  let r := daLoop outs none []
  .jobj
    [ ("header", (r.1.getD .jnull).pyOr (.jobj []))
    , ("transactions", .jarr r.2)
    , ("is_multi_transaction", .jbool (decide (1 < r.2.length))) ]

/-- `src/extract.py` `extract_document` for every other form type, as a
function of the per-page model-gateway outputs: merge dict results into
an accumulator, return a first-page non-dict as-is, silently skip later
non-dict results. -/
def mergeStep (acc : JDict) (out : JValue) : JDict :=
  match out with
  | .jobj d => mergePageDicts acc d
  | _ => acc

def extractMerge (outs : List JValue) : JValue :=
  match outs with
  | [] => .jobj []
  | out0 :: rest =>
      match out0 with
      | .jobj d0 => .jobj (rest.foldl mergeStep (mergePageDicts [] d0))
      | other => other

/-- Python truthiness of a number (`1 if v else 0` on int/float). -/
def Rat.pyTruthyNum (q : ℚ) : Bool := decide (q ≠ 0)

/-! ## Classifier (src/classify.py) -/

/-- Lexicographic order on character lists by code point, as Python
compares strings (`sorted`, `<`). -/
def lexLe : List Char → List Char → Bool
  | [], _ => true
  | _ :: _, [] => false
  | a :: as, b :: bs =>
    if a.toNat < b.toNat then true
    else if b.toNat < a.toNat then false
    else lexLe as bs

/-- Python string `<=`, on `String`. -/
def pyStrLe (a b : String) : Prop := lexLe a.data b.data = true

instance : DecidableRel pyStrLe := fun a b => by
  unfold pyStrLe; infer_instance

/-- `src/classify.py` `TEXT_SIGNALS`: (signal text, form type) pairs. -/
def TEXT_SIGNALS : List (String × String) :=
  [ ("1099-DA", "1099-DA")
  , ("OMB No. 1545-2298", "1099-DA")
  , ("W-2 Wage", "W-2")
  , ("Wage and Tax Statement", "W-2")
  , ("OMB No. 1545-0008", "W-2")
  , ("1099-NEC", "1099-NEC")
  , ("OMB No. 1545-0116", "1099-NEC")
  , ("1099-INT", "1099-INT")
  , ("OMB No. 1545-0112", "1099-INT")
  , ("1099-DIV", "1099-DIV")
  , ("OMB No. 1545-0110", "1099-DIV")
  , ("1099-R", "1099-R")
  , ("OMB No. 1545-0119", "1099-R")
  , ("1099-B", "1099-B")
  , ("OMB No. 1545-0715", "1099-B")
  , ("Schedule K-1", "K-1")
  , ("Form 1040", "1040") ]

/-- Python substring test `pat in hay` on character lists. -/
def listContainsSub (hay pat : List Char) : Bool :=
  hay.tails.any (fun t => pat.isPrefixOf t)

/-- `needle.lower() in text.lower()` from the signal-matching loop. -/
def signalMatches (text : String) (needle : String) : Bool :=
  listContainsSub (text.data.map Char.toLower) (needle.data.map Char.toLower)

/-- The `hits` list built by `classify_document`: the form type of every
signal whose text occurs case-insensitively in the extracted text, in
table order. -/
def textHits (text : String) : List String :=
  (TEXT_SIGNALS.filter (fun sig => signalMatches text sig.1)).map (fun sig => sig.2)

/-- The classification triple returned by `classify_document`. -/
structure Classification where
  doc_type : String
  confidence : ℚ
  method : String
deriving DecidableEq

/-- `src/classify.py` `classify_document`, as a function of the text
extracted from the first two pages.  The vision fallback (model call on
a rendered page) is passed in as `vision`, the value the fallback branch
would produce; the text-signal branch is embedded from the source. -/
def classify_document (text : String) (vision : Classification) : Classification :=
  let hits := textHits text
  if hits.isEmpty then vision
  else
    let uniq := List.insertionSort pyStrLe hits.dedup
    if 2 ≤ uniq.length ∧ uniq.any (fun t => ("1099-".data).isPrefixOf t.data) then
      { doc_type := "consolidated-1099", confidence := 0.85, method := "text" }
    else
      { doc_type := uniq.headI, confidence := 0.9, method := "text" }

/-- `src/store.py` `_bool_to_int`: tri-state coercion of a boolean-ish
JSON value to an integer flag (`1`, `0`, or SQL NULL). -/
def boolToInt : JValue → Option ℤ
  | .jnull => none
  | .jbool b => some (if b then 1 else 0)
  | .jnum q => some (if q.pyTruthyNum then 1 else 0)
  | _ => none

/-! ## Model Gateway response normalization (src/ai.py) -/

/-- ASCII whitespace stripped by Python `str.strip()` (the characters
that occur around model responses). -/
def isPyWS (c : Char) : Bool :=
  c == ' ' || c == '\t' || c == '\n' || c == '\r' || c == '\x0b' || c == '\x0c'

/-- Python `text.lstrip()`. -/
def pyLstrip (l : List Char) : List Char := l.dropWhile isPyWS

/-- Python `text.rstrip()`. -/
def pyRstrip (l : List Char) : List Char := (l.reverse.dropWhile isPyWS).reverse

/-- Python `text.strip()`. -/
def pyStrip (l : List Char) : List Char := pyLstrip (pyRstrip l)

/-- The backtick character. -/
def btick : Char := Char.ofNat 96

/-- A triple-backtick code-fence marker. -/
def fenceMark : List Char := [btick, btick, btick]

/-- Python `text.split("\n", 1)[-1]`: everything after the first
newline, or the whole text when it has none. -/
def afterFirstNewline (l : List Char) : List Char :=
  if '\n' ∈ l then (l.dropWhile (fun c => c != '\n')).drop 1 else l

/-- Scan for the first code fence and return what follows it. -/
def afterFence : List Char → Option (List Char)
  | a :: b :: c :: rest =>
      if a = btick ∧ b = btick ∧ c = btick then some rest
      else afterFence (b :: c :: rest)
  | _ => none

/-- Python `text.rsplit("```", 1)[0]`: everything before the last
code fence (the whole text when there is none). -/
def beforeLastFence (l : List Char) : List Char :=
  match afterFence l.reverse with
  | some r => r.reverse
  | none => l

/-- `src/ai.py` `chat_json_from_image`, lines 58–64: normalization of the
model's response text before `json.loads` — strip whitespace; if the text
starts with a code fence, drop the opening fence line, drop a trailing
fence if present, and strip again. -/
def normalizeResponse (l : List Char) : List Char :=
  let t := pyStrip l
  if fenceMark.isPrefixOf t then
    let t1 := afterFirstNewline t
    let t2 := if fenceMark.isSuffixOf t1 then beforeLastFence t1 else t1
    pyStrip t2
  else t

/-! ## Document store and pipeline state (src/db.py, src/store.py, src/main.py)

The SQLite tables are modelled as lists of rows in insertion order;
`fetchone` on an equality filter is `List.find?`, `DELETE ... WHERE` is
`List.filter`, timestamps and fresh row ids come from a logical clock. -/

/-- A row of the `documents` table. -/
structure DocRec where
  id : Nat
  file_path : String := ""
  file_hash : String := ""
  original_filename : String := ""
  tax_year : Option Int := none
  doc_type : Option String := none
  filer : Option String := none
  payer_name : Option JValue := none
  recipient_name : Option JValue := none
  account_number : Option JValue := none
  page_count : Option Nat := none
  extracted_at : Option Nat := none
  classification_confidence : Option ℚ := none
  overall_confidence : Option ℚ := none
  status : String := "received"
  notes : Option String := none
  needs_review : Option Bool := none
  created_at : Nat := 0

/-- A row of the `form_extractions` table. -/
structure ExtRec where
  id : Nat
  document_id : Nat
  form_type : String
  raw_json : JValue
  confidence : Option ℚ := none
  created_at : Nat := 0

/-- A row of the `transactions_1099da` table, with the typed columns of
the `INSERT` in `store_1099da_transactions`. -/
structure TxnRec where
  document_id : Nat
  asset_code : JValue := .jnull
  asset_name : JValue := .jnull
  units : JValue := .jnull
  date_acquired : JValue := .jnull
  date_sold : JValue := .jnull
  proceeds : JValue := .jnull
  cost_basis : JValue := .jnull
  accrued_market_discount : JValue := .jnull
  wash_sale_disallowed : JValue := .jnull
  basis_reported_to_irs : Option ℤ := none
  proceeds_type : JValue := .jnull
  qof_proceeds : Option ℤ := none
  federal_withheld : JValue := .jnull
  loss_not_allowed : Option ℤ := none
  gain_loss_term : JValue := .jnull
  cash_only : Option ℤ := none
  customer_info_used : Option ℤ := none
  noncovered : Option ℤ := none
  aggregate_flag : JValue := .jnull
  transaction_count : JValue := .jnull
  nft_first_sale_proceeds : JValue := .jnull
  units_transferred_in : JValue := .jnull
  transfer_in_date : JValue := .jnull
  form_8949_code : JValue := .jnull
  state_name : JValue := .jnull
  state_id : JValue := .jnull
  state_withheld : JValue := .jnull
  confidence : JValue := .jnull
  raw_json : JValue := .jnull

/-- A row of the `extracted_fields` table (a Flattened Field). -/
structure FieldRec where
  document_id : Nat
  field_path : String
  field_value : Option String := none
  confidence : Option ℚ := none

/-- The persistent store: all four tables plus the logical clock that
supplies fresh ids and creation timestamps. -/
structure St where
  clock : Nat := 0
  documents : List DocRec := []
  extractions : List ExtRec := []
  txns : List TxnRec := []
  fields : List FieldRec := []

/-- Python `t.get(k)` on a transaction dict: JSON `null` models both an
absent key and an explicit `None`, which bind identically as SQL NULL. -/
def tget (t : JValue) (k : String) : JValue :=
  (t.objGet k).getD .jnull

/-- The row built by one loop iteration of
`src/store.py` `store_1099da_transactions`: each typed column is
`t.get(...)`, with `_bool_to_int` applied to the six flag columns, and
the original dict kept as `raw_json`. -/
def mkTxnRow (docId : Nat) (t : JValue) : TxnRec :=
  { document_id := docId
  , asset_code := tget t "asset_code"
  , asset_name := tget t "asset_name"
  , units := tget t "units"
  , date_acquired := tget t "date_acquired"
  , date_sold := tget t "date_sold"
  , proceeds := tget t "proceeds"
  , cost_basis := tget t "cost_basis"
  , accrued_market_discount := tget t "accrued_market_discount"
  , wash_sale_disallowed := tget t "wash_sale_disallowed"
  , basis_reported_to_irs := boolToInt (tget t "basis_reported_to_irs")
  , proceeds_type := tget t "proceeds_type"
  , qof_proceeds := boolToInt (tget t "qof_proceeds")
  , federal_withheld := tget t "federal_withheld"
  , loss_not_allowed := boolToInt (tget t "loss_not_allowed")
  , gain_loss_term := tget t "gain_loss_term"
  , cash_only := boolToInt (tget t "cash_only")
  , customer_info_used := boolToInt (tget t "customer_info_used")
  , noncovered := boolToInt (tget t "noncovered")
  , aggregate_flag := tget t "aggregate_flag"
  , transaction_count := tget t "transaction_count"
  , nft_first_sale_proceeds := tget t "nft_first_sale_proceeds"
  , units_transferred_in := tget t "units_transferred_in"
  , transfer_in_date := tget t "transfer_in_date"
  , form_8949_code := tget t "form_8949_code"
  , state_name := tget t "state_name"
  , state_id := tget t "state_id"
  , state_withheld := tget t "state_withheld"
  , confidence := tget t "confidence"
  , raw_json := t }

/-- `src/store.py` `store_1099da_transactions`:
`txns = extraction.get("transactions") or []`, return unchanged when
that is not a list, insert a row per dict element (non-dicts skipped). -/
def store_1099da_transactions (st : St) (docId : Nat) (extraction : JValue) : St :=
  match (tget extraction "transactions").pyOr (.jarr []) with
  | .jarr ts =>
      { st with txns := st.txns ++ (ts.filter (fun t => t.isDict)).map (mkTxnRow docId) }
  | _ => st

/-- `src/store.py` `get_document_by_hash`:
`SELECT * FROM documents WHERE file_hash = ?` + `fetchone`. -/
def get_document_by_hash (st : St) (h : String) : Option DocRec :=
  st.documents.find? (fun d => d.file_hash == h)

/-- Apply an `UPDATE documents ... WHERE id=?` row transformation. -/
def updateDoc (st : St) (docId : Nat) (g : DocRec → DocRec) : St :=
  { st with documents := st.documents.map (fun d => if d.id = docId then g d else d) }

/-- `src/store.py` `delete_document`: `DELETE` the document's
`transactions_1099da` rows, its `form_extractions` rows and the
`documents` row itself.  The source issues no `DELETE` against
`extracted_fields`, so flattened-field rows are left in place. -/
def delete_document (st : St) (docId : Nat) : St :=
  { st with
    txns := st.txns.filter (fun t => t.document_id != docId)
  , extractions := st.extractions.filter (fun e => e.document_id != docId)
  , documents := st.documents.filter (fun d => d.id != docId) }

/-- `src/store.py` `ingest_file` as a function of the uploaded bytes and
original filename, with the content-hash function abstract:
`dest_name = f"{file_hash[:12]}_{original_filename}"`. -/
def ingest_file (hashFn : List Nat → String) (fileBytes : List Nat) (filename : String) :
    String × String × String :=
  let fileHash := hashFn fileBytes
  ((fileHash.take 12) ++ "_" ++ filename, fileHash, filename)

/-- The collaborators the upload flow calls.  `hashFn` abstracts
`sha256_file` (deterministic in the byte content); `classify` and
`extract` abstract the model-backed classifier and extractor;
`flatten`, `missingRequired`, `overallConfidence` and `needsReview`
stand for `store_extracted_fields` and the `review` module.
Modelled from the spec: `store_extracted_fields`, `store_raw_extraction`,
`mark_needs_review` and `src/review.py` are imported by `src/main.py` but
absent from the source tree, so they are abstract here, shaped by the
spec's §4.4/§4.5 contracts. -/
structure Pipeline where
  hashFn : List Nat → String
  pageCount : String → Nat
  classify : String → Classification
  extract : String → String → Except String JValue
  flatten : JValue → List (String × Option String × Option ℚ)
  missingRequired : String → JValue → List String
  overallConfidence : String → JValue → ℚ → ℚ
  needsReview : ℚ → ℚ → List String → Bool

/-- The fresh `documents` row inserted by `create_document_record`. -/
def newDocRecord (st : St) (filePath fileHash origName : String)
    (docType : String) (pages : Nat) (clsConf : ℚ) : DocRec :=
  { id := st.clock
  , file_path := filePath
  , file_hash := fileHash
  , original_filename := origName
  , doc_type := some docType
  , page_count := some pages
  , classification_confidence := some clsConf
  , status := "processing"
  , created_at := st.clock }

/-- `create_document_record`: `INSERT INTO documents ... 'processing'`. -/
def create_document_record (st : St) (filePath fileHash origName : String)
    (docType : String) (pages : Nat) (clsConf : ℚ) : St × Nat :=
  ( { st with
      clock := st.clock + 1
    , documents := st.documents ++ [newDocRecord st filePath fileHash origName docType pages clsConf] }
  , st.clock )

/-- Modelled from the spec: `store_raw_extraction` (absent from src;
`store_extraction` in `src/store.py` is its older shape) appends one
Extraction Record with a fresh id and creation timestamp. -/
def store_raw_extraction (st : St) (docId : Nat) (formType : String) (data : JValue)
    (conf : Option ℚ) : St :=
  { st with
    clock := st.clock + 1
  , extractions := st.extractions ++
      [ { id := st.clock, document_id := docId, form_type := formType
        , raw_json := data, confidence := conf, created_at := st.clock } ] }

/-- Modelled from the spec: `store_extracted_fields` (absent from src)
appends one Flattened Field row per scalar leaf of the extraction; the
flattening itself is the abstract `flatten` collaborator. -/
def store_extracted_fields (p : Pipeline) (st : St) (docId : Nat) (data : JValue) : St :=
  { st with
    fields := st.fields ++
      (p.flatten data).map (fun f => { document_id := docId, field_path := f.1
                                     , field_value := f.2.1, confidence := f.2.2 }) }

/-- Modelled from the spec: `mark_needs_review` (absent from src) sets
status `needs_review` and records the error message as notes. -/
def mark_needs_review (st : St) (docId : Nat) (msg : String) : St :=
  updateDoc st docId (fun d => { d with status := "needs_review", notes := some msg })

/-- `mark_processed` as invoked by `src/main.py`: status `processed`,
extraction timestamp, overall confidence and review flag.  (The stale
`src/store.py` signature takes notes instead of the review flag; the
caller's shape, which matches the spec's lifecycle, is used.) -/
def mark_processed (st : St) (docId : Nat) (overall : ℚ) (nr : Bool) : St :=
  updateDoc st docId (fun d =>
    { d with
        status := "processed"
        extracted_at := some st.clock
        overall_confidence := some overall
        needs_review := some nr })

/-- `COALESCE(new, old)` where the new value is a JSON value with `null`
meaning SQL NULL. -/
def coalesceJ (new : JValue) (old : Option JValue) : Option JValue :=
  match new with
  | .jnull => old
  | v => some v

/-- The identity-field `UPDATE` block of the upload flow
(`src/main.py` lines 292–308), run only when the extraction is a dict:
take the header sub-dict when present (else the extraction itself), and
`COALESCE` payer/recipient/account fields, setting overall confidence
and the review flag. -/
def updateIdentityFields (st : St) (docId : Nat) (extracted : JValue) (overall : ℚ)
    (nr : Bool) : St :=
  match extracted with
  | .jobj fs =>
      let headerv : JValue :=
        match dlookup fs "header" with
        | some (.jobj hf) => .jobj hf
        | _ => .jobj fs
      updateDoc st docId (fun d =>
        { d with
            payer_name := coalesceJ (tget headerv "payer_name") d.payer_name
            recipient_name := coalesceJ (tget headerv "recipient_name") d.recipient_name
            account_number := coalesceJ (tget headerv "account_number") d.account_number
            overall_confidence := some overall
            needs_review := some nr })
  | _ => st

/-- `src/main.py` `upload` (after the privacy gate, which precedes any
ingestion): ingest, dedup by content hash with an early return to the
existing record, else classify, create the Document, extract, persist
extraction / flattened fields / 1099-DA transactions, compute the review
outcome, and mark processed — any extraction failure marks the document
for review instead.  Returns the state and the id of the document whose
page the response redirects to. -/
def uploadMiss (p : Pipeline) (st : St) (fileBytes : List Nat) (filename : String) : St × Nat :=
  let ing := ingest_file p.hashFn fileBytes filename
  let cls := p.classify ing.1
  let created := create_document_record st ing.1 ing.2.1 ing.2.2 cls.doc_type
    (p.pageCount ing.1) cls.confidence
  let docId := created.2
  match p.extract ing.1 cls.doc_type with
  | .error e => (mark_needs_review created.1 docId e, docId)
  | .ok extracted =>
      let st2 := store_raw_extraction created.1 docId cls.doc_type extracted
        (some cls.confidence)
      let st3 := store_extracted_fields p st2 docId extracted
      let st4 := if cls.doc_type = "1099-DA" ∧ extracted.isDict = true then
          store_1099da_transactions st3 docId extracted
        else st3
      let missing := p.missingRequired cls.doc_type extracted
      let overall := p.overallConfidence cls.doc_type extracted cls.confidence
      let nr := p.needsReview cls.confidence overall missing
      let st5 := updateIdentityFields st4 docId extracted overall nr
      (mark_processed st5 docId overall nr, docId)

def upload (p : Pipeline) (st : St) (fileBytes : List Nat) (filename : String) : St × Nat :=
  match get_document_by_hash st (ingest_file p.hashFn fileBytes filename).2.1 with
  | some existing => (st, existing.id)
  | none => uploadMiss p st fileBytes filename

/-! ## Exporter (src/exporter.py) -/

/-- A CSV cell before serialization: the typed value handed to
`csv.DictWriter` (Python `None` becomes the empty cell). -/
inductive Cell where
  | null : Cell
  | s (v : String) : Cell
  | q (v : ℚ) : Cell
  | z (v : Int) : Cell
  | n (v : Nat) : Cell
  | b (v : Bool) : Cell
  | j (v : JValue) : Cell

/-- Lift an optional value into a cell. -/
def ocell (f : α → Cell) : Option α → Cell
  | none => Cell.null
  | some v => f v

/-- `src/exporter.py` `DOC_BASE_COLS`. -/
def DOC_BASE_COLS : List String :=
  [ "document_id", "doc_type", "tax_year", "filer", "payer_name", "recipient_name"
  , "account_number", "classification_confidence", "overall_confidence", "needs_review"
  , "created_at" ]

/-- `src/exporter.py` `_doc_row`: the base cells of one document. -/
def docRowCells (d : DocRec) : List Cell :=
  [ Cell.n d.id
  , ocell Cell.s d.doc_type
  , ocell Cell.z d.tax_year
  , ocell Cell.s d.filer
  , ocell Cell.j d.payer_name
  , ocell Cell.j d.recipient_name
  , ocell Cell.j d.account_number
  , ocell Cell.q d.classification_confidence
  , ocell Cell.q d.overall_confidence
  , ocell Cell.b d.needs_review
  , Cell.n d.created_at ]

/-- The header row of the long CSV exports:
`DOC_BASE_COLS + ["field_path", "field_value", "confidence"]`. -/
def csvLongHeader : List Cell :=
  (DOC_BASE_COLS ++ ["field_path", "field_value", "confidence"]).map Cell.s

/-- One long-format data row for a (document, flattened field) pair. -/
def fieldRow (d : DocRec) (f : FieldRec) : List Cell :=
  docRowCells d ++ [Cell.s f.field_path, ocell Cell.s f.field_value, ocell Cell.q f.confidence]

/-- `ORDER BY field_path ASC` (byte order on UTF-8 text, which is
code-point order). -/
def sortFieldsByPath (fs : List FieldRec) : List FieldRec :=
  List.insertionSort (fun a b => pyStrLe a.field_path b.field_path) fs

/-- `ORDER BY created_at DESC` on documents. -/
def sortDocsByCreatedDesc (ds : List DocRec) : List DocRec :=
  List.insertionSort (fun a b => b.created_at ≤ a.created_at) ds

/-- `src/exporter.py` `export_doc_csv_long`: header row, then one data
row per flattened field of the document; a missing id raises
(`ValueError("document not found")`).  The source has no fallback row
when the document has no flattened fields. -/
def export_doc_csv_long (st : St) (docId : Nat) : Except String (List (List Cell)) :=
  match st.documents.find? (fun d => d.id == docId) with
  | none => .error "document not found"
  | some doc =>
      let rows := sortFieldsByPath (st.fields.filter (fun f => f.document_id == docId))
      .ok (csvLongHeader :: rows.map (fieldRow doc))

/-- `src/exporter.py` `export_all_csv_long`: header row, then for each
document (newest first) its field rows, or a single row with empty
`field_path`/`field_value`/`confidence` cells when it has none. -/
def export_all_csv_long (st : St) : List (List Cell) :=
  csvLongHeader ::
    (sortDocsByCreatedDesc st.documents).flatMap (fun d =>
      let rows := sortFieldsByPath (st.fields.filter (fun f => f.document_id == d.id))
      if rows.isEmpty then [docRowCells d ++ [Cell.s "", Cell.s "", Cell.s ""]]
      else rows.map (fieldRow d))

/-! ## Lemmas: dict merging -/

theorem dlookup_nil (k : String) : dlookup [] k = none := rfl

theorem dlookup_cons (kv : String × JValue) (d : JDict) (k : String) :
    dlookup (kv :: d) k = if kv.1 = k then some kv.2 else dlookup d k := by
  by_cases h : kv.1 = k <;> simp [dlookup, List.find?, h]

theorem dlookup_dinsert_self (d : JDict) (k : String) (v : JValue) :
    dlookup (dinsert d k v) k = some v := by
  induction d with
  | nil => simp [dinsert, dlookup_cons]
  | cons kv rest ih =>
      by_cases h : kv.1 = k
      · rw [dinsert, if_pos h, dlookup_cons, if_pos rfl]
      · rw [dinsert, if_neg h, dlookup_cons, if_neg h]
        exact ih

theorem dlookup_dinsert_ne (d : JDict) {k k' : String} (v : JValue) (h : k' ≠ k) :
    dlookup (dinsert d k' v) k = dlookup d k := by
  induction d with
  | nil => simp [dinsert, dlookup_cons, dlookup_nil, h]
  | cons kv rest ih =>
      by_cases hk : kv.1 = k'
      · rw [dinsert, if_pos hk, dlookup_cons, if_neg h, dlookup_cons,
          if_neg (by rw [hk]; exact h)]
      · rw [dinsert, if_neg hk, dlookup_cons, dlookup_cons, ih]

theorem dlookup_eq_none_of_not_mem (d : JDict) (k : String)
    (h : k ∉ d.map Prod.fst) : dlookup d k = none := by
  induction d with
  | nil => rfl
  | cons kv rest ih =>
      simp only [List.map_cons, List.mem_cons] at h
      push_neg at h
      rw [dlookup_cons, if_neg (fun hh => h.1 hh.symm)]
      exact ih h.2

/-- Stability of `_merge_page_dicts`: a later page's value enters the
accumulator only when the accumulator's slot is absent or `None`. -/
theorem dlookup_mergePageDicts_of_filled (acc u : JDict) (k : String)
    (h : isNullSlot (dlookup acc k) = false) :
    dlookup (mergePageDicts acc u) k = dlookup acc k := by
  induction u generalizing acc with
  | nil => rfl
  | cons kv u' ih =>
      show dlookup (mergePageDicts (if isNullSlot (dlookup acc kv.1) then
        dinsert acc kv.1 kv.2 else acc) u') k = dlookup acc k
      by_cases hk : kv.1 = k
      · rw [hk, h, if_neg (by simp)]
        exact ih acc h
      · by_cases hn : isNullSlot (dlookup acc kv.1)
        · rw [if_pos hn]
          have hl : dlookup (dinsert acc kv.1 kv.2) k = dlookup acc k :=
            dlookup_dinsert_ne acc kv.2 hk
          rw [ih _ (hl ▸ h), hl]
        · rw [if_neg hn]
          exact ih acc h

/-- Full characterization of one merge step on a page with distinct
keys: a null/absent accumulator slot takes the page's value when the
page has the key, otherwise everything is unchanged. -/
theorem dlookup_mergePageDicts (b u : JDict) (k : String)
    (hu : (u.map Prod.fst).Nodup) :
    dlookup (mergePageDicts b u) k =
      if isNullSlot (dlookup b k) then (dlookup u k).or (dlookup b k)
      else dlookup b k := by
  induction u generalizing b with
  | nil =>
      simp [mergePageDicts, dlookup_nil]
  | cons kv u' ih =>
      simp only [List.map_cons, List.nodup_cons] at hu
      have hstep : mergePageDicts b (kv :: u')
          = mergePageDicts (if isNullSlot (dlookup b kv.1) then
              dinsert b kv.1 kv.2 else b) u' := rfl
      by_cases hk : kv.1 = k
      · subst hk
        have hu' : dlookup u' kv.1 = none :=
          dlookup_eq_none_of_not_mem _ _ hu.1
        by_cases hn : isNullSlot (dlookup b kv.1)
        · rw [hstep, if_pos hn, ih _ hu.2, dlookup_dinsert_self,
            dlookup_cons, if_pos rfl, if_pos hn, hu']
          rcases hv : isNullSlot (some kv.2) <;> simp
        · rw [hstep, if_neg hn, ih _ hu.2, if_neg hn, if_neg hn]
      · have hcons : dlookup (kv :: u') k = dlookup u' k := by
          rw [dlookup_cons, if_neg hk]
        by_cases hn : isNullSlot (dlookup b kv.1)
        · have hl : dlookup (dinsert b kv.1 kv.2) k = dlookup b k :=
            dlookup_dinsert_ne b kv.2 hk
          rw [hstep, if_pos hn, ih _ hu.2, hl, hcons]
        · rw [hstep, if_neg hn, ih _ hu.2, hcons]

/-- The value the claim predicts for a key: the value on the earliest
page where the key is present and non-null. -/
def firstNonNull : List JDict → String → Option JValue
  | [], _ => none
  | p :: rest, k =>
      match dlookup p k with
      | none => firstNonNull rest k
      | some v => if v.isNull then firstNonNull rest k else some v

theorem isNullSlot_some_of_ne {v : JValue} (h : v.isNull = false) :
    isNullSlot (some v) = false := by
  simp [isNullSlot, h]

theorem foldl_merge_of_filled (pages : List JDict) (b : JDict) (k : String)
    (h : isNullSlot (dlookup b k) = false) :
    dlookup (pages.foldl mergePageDicts b) k = dlookup b k := by
  induction pages generalizing b with
  | nil => rfl
  | cons p rest ih =>
      have hp : dlookup (mergePageDicts b p) k = dlookup b k :=
        dlookup_mergePageDicts_of_filled b p k h
      rw [List.foldl_cons, ih _ (hp ▸ h), hp]

theorem foldl_merge_firstNonNull (pages : List JDict) (b : JDict) (k : String)
    (v : JValue) (hnd : ∀ p ∈ pages, (p.map Prod.fst).Nodup)
    (hb : isNullSlot (dlookup b k) = true)
    (hv : firstNonNull pages k = some v) :
    dlookup (pages.foldl mergePageDicts b) k = some v := by
  induction pages generalizing b with
  | nil => simp [firstNonNull] at hv
  | cons p rest ih =>
      have hndp := hnd p (by simp)
      have hndr : ∀ q ∈ rest, (q.map Prod.fst).Nodup :=
        fun q hq => hnd q (by simp [hq])
      have hmerge := dlookup_mergePageDicts b p k hndp
      rw [if_pos hb] at hmerge
      have hvstep : firstNonNull (p :: rest) k =
          match dlookup p k with
          | none => firstNonNull rest k
          | some w => if w.isNull then firstNonNull rest k else some w := rfl
      rw [List.foldl_cons]
      cases hpk : dlookup p k with
      | none =>
          rw [hpk, Option.none_or] at hmerge
          have hv' : firstNonNull rest k = some v := by
            rw [hvstep, hpk] at hv
            exact hv
          exact ih _ hndr (by rw [hmerge]; exact hb) hv'
      | some w =>
          rw [hpk] at hmerge
          simp only [Option.or] at hmerge
          cases hw : w.isNull with
          | true =>
              have hv' : firstNonNull rest k = some v := by
                rw [hvstep, hpk] at hv
                simpa [hw] using hv
              exact ih _ hndr (by rw [hmerge]; simp [isNullSlot, hw]) hv'
          | false =>
              have hv' : w = v := by
                rw [hvstep, hpk] at hv
                simpa [hw] using hv
              subst hv'
              rw [foldl_merge_of_filled rest _ k
                (by rw [hmerge]; exact isNullSlot_some_of_ne hw), hmerge]

/-! ## Lemmas: 1099-DA aggregation loop -/

theorem daLoop_snd (outs : List JValue) (h : Option JValue) (t : List JValue) :
    (daLoop outs h t).2 = t ++ (outs.map pageTxns).flatten := by
  induction outs generalizing h t with
  | nil => simp [daLoop]
  | cons o rest ih => simp [daLoop, ih, List.append_assoc]

theorem daLoop_fst_some (outs : List JValue) (h : JValue) (t : List JValue) :
    (daLoop outs (some h) t).1 = some h := by
  induction outs generalizing t with
  | nil => rfl
  | cons o rest ih => simp [daLoop, daHeaderStep, ih]

theorem daLoop_fst_none (outs : List JValue) (t : List JValue) :
    (daLoop outs none t).1 =
      (outs.find? (fun o => o.isDict)).map
        (fun o => ((o.objGet "header").getD .jnull).pyOr (.jobj [])) := by
  induction outs generalizing t with
  | nil => rfl
  | cons o rest ih =>
      by_cases ho : o.isDict
      · rw [List.find?_cons_of_pos _ ho]
        simp [daLoop, daHeaderStep, ho, daLoop_fst_some]
      · rw [List.find?_cons_of_neg _ (by simpa using ho)]
        simp [daLoop, daHeaderStep, ho, ih]

theorem dlookup_triple_first (k1 k2 k3 : String) (v1 v2 v3 : JValue) :
    dlookup [(k1, v1), (k2, v2), (k3, v3)] k1 = some v1 := by
  rw [dlookup_cons, if_pos rfl]

theorem dlookup_triple_second (k1 k2 k3 : String) (v1 v2 v3 : JValue) (h12 : k1 ≠ k2) :
    dlookup [(k1, v1), (k2, v2), (k3, v3)] k2 = some v2 := by
  rw [dlookup_cons, if_neg h12, dlookup_cons, if_pos rfl]

theorem dlookup_triple_third (k1 k2 k3 : String) (v1 v2 v3 : JValue)
    (h13 : k1 ≠ k3) (h23 : k2 ≠ k3) :
    dlookup [(k1, v1), (k2, v2), (k3, v3)] k3 = some v3 := by
  rw [dlookup_cons, if_neg h13, dlookup_cons, if_neg h23, dlookup_cons, if_pos rfl]

theorem extractDA_objGet_transactions (outs : List JValue) :
    (extractDA outs).objGet "transactions" = some (.jarr ((outs.map pageTxns).flatten)) := by
  show dlookup _ "transactions" = _
  rw [dlookup_triple_second _ _ _ _ _ _ (by decide), daLoop_snd]
  simp

theorem extractDA_objGet_multi (outs : List JValue) :
    (extractDA outs).objGet "is_multi_transaction"
      = some (.jbool (decide (1 < ((outs.map pageTxns).flatten).length))) := by
  show dlookup _ "is_multi_transaction" = _
  rw [dlookup_triple_third _ _ _ _ _ _ (by decide) (by decide), daLoop_snd]
  simp

/-- The header rule the 1099-DA branch actually implements: the header
is taken from the first page whose result is a JSON object — its
`"header"` value if truthy, else `{}` — whether or not that result
contains a header; with no object page at all it is `{}`.  (Stated from
the amended claim, for comparison with `extractDA`.) -/
def headerOfFirstDictPage (outs : List JValue) : JValue :=
  match outs.find? (fun o => o.isDict) with
  | some o => ((o.objGet "header").getD .jnull).pyOr (.jobj [])
  | none => .jobj []

theorem pyOr_jobj_nil_idem (a : JValue) :
    ((a.pyOr (.jobj [])).pyOr (.jobj [])) = a.pyOr (.jobj []) := by
  by_cases h : a.pyTruthy
  · have h2 : a.pyOr (.jobj []) = a := by rw [JValue.pyOr, if_pos h]
    rw [h2, JValue.pyOr, if_pos h]
  · have h2 : a.pyOr (.jobj []) = .jobj [] := by rw [JValue.pyOr, if_neg h]
    rw [h2]
    rfl

/-! ## Claims C2, C5, C3, C10 -/

/-- C2: under the merge-across-pages strategy, the merged result maps
each key to the value from the earliest page where that key is present
and non-null; a later page's value enters the accumulator only when the
key is absent or null there; and the page results
`[{"a": null, "b": 1}, {"a": 2, "b": 3}]` merge to `{"a": 2, "b": 1}`. -/
theorem merge_first_non_null_wins (pages : List JDict) (k : String) (v : JValue)
    (hnd : ∀ p ∈ pages, (p.map Prod.fst).Nodup)
    (hv : firstNonNull pages k = some v) :
    dlookup (pages.foldl mergePageDicts []) k = some v
    ∧ (∀ (acc u : JDict) (k' : String), isNullSlot (dlookup acc k') = false →
        dlookup (mergePageDicts acc u) k' = dlookup acc k')
    ∧ [[("a", JValue.jnull), ("b", JValue.jnum 1)],
       [("a", JValue.jnum 2), ("b", JValue.jnum 3)]].foldl mergePageDicts []
        = [("a", JValue.jnum 2), ("b", JValue.jnum 1)] :=
  ⟨foldl_merge_firstNonNull pages [] k v hnd rfl hv,
   fun acc u k' h => dlookup_mergePageDicts_of_filled acc u k' h,
   rfl⟩

/-- Witness for C2 at the spec's own example: key `"a"` is null on page
1 and `2` on page 2, so the merge holds `2`. -/
theorem merge_first_non_null_wins_witness :
    dlookup ([[("a", JValue.jnull), ("b", JValue.jnum 1)],
              [("a", JValue.jnum 2), ("b", JValue.jnum 3)]].foldl mergePageDicts []) "a"
      = some (JValue.jnum 2) :=
  (merge_first_non_null_wins
    [[("a", JValue.jnull), ("b", JValue.jnum 1)],
     [("a", JValue.jnum 2), ("b", JValue.jnum 3)]]
    "a" (JValue.jnum 2) (by decide) rfl).1

/-- A concrete 1099-DA transaction dict used in examples. -/
def daTxn (n : ℚ) : JValue :=
  .jobj [("proceeds", .jnum n), ("cost_basis", .jnum n)]

/-- A concrete per-page model output with a header and one transaction. -/
def daPage (n : ℚ) : JValue :=
  .jobj [ ("header", .jobj [("payer_name", .jstr "Exchange LLC")])
        , ("transactions", .jarr [daTxn n]) ]

/-- C5: under the aggregate-across-pages strategy the result's
transactions are the concatenation of every page's transactions in page
order, `is_multi_transaction` is true iff more than one transaction was
collected; 3 pages of 1 transaction each give 3 transactions in order
with the flag true, 1 page of 1 transaction gives the flag false. -/
theorem aggregate_concats_transactions :
    (∀ outs : List JValue,
      (extractDA outs).objGet "transactions" = some (.jarr ((outs.map pageTxns).flatten))
      ∧ (extractDA outs).objGet "is_multi_transaction"
          = some (.jbool (decide (1 < ((outs.map pageTxns).flatten).length))))
    ∧ extractDA [daPage 1, daPage 2, daPage 3]
        = .jobj [ ("header", .jobj [("payer_name", .jstr "Exchange LLC")])
                , ("transactions", .jarr [daTxn 1, daTxn 2, daTxn 3])
                , ("is_multi_transaction", .jbool true) ]
    ∧ extractDA [daPage 1]
        = .jobj [ ("header", .jobj [("payer_name", .jstr "Exchange LLC")])
                , ("transactions", .jarr [daTxn 1])
                , ("is_multi_transaction", .jbool false) ] :=
  ⟨fun outs => ⟨extractDA_objGet_transactions outs, extractDA_objGet_multi outs⟩,
   rfl, rfl⟩

/-- Counterexample to C3 as stated: page 1 is an object with
transactions but no header, page 2 returns a header; the code fixes the
header at page 1 and yields `{}`, not page 2's header. -/
def c3Pages : List JValue :=
  [ .jobj [("transactions", .jarr [daTxn 5])]
  , .jobj [ ("header", .jobj [("payer_name", .jstr "Exchange LLC")])
          , ("transactions", .jarr []) ] ]

/-- C3 counterexample: on `c3Pages` the extracted header is `{}`, not
the header returned by the first page that actually returns one. -/
theorem aggregate_header_claim_false :
    (extractDA c3Pages).objGet "header" = some (JValue.jobj [])
    ∧ some (JValue.jobj []) ≠
        some (JValue.jobj [("payer_name", JValue.jstr "Exchange LLC")]) :=
  ⟨rfl, by simp⟩

/-- C3 amended: the header is taken from the first page whose result is
a JSON object — that page's truthy `"header"` value, else `{}` — whether
or not it contains a header; object pages without a header fix the
header to `{}` for the rest of the document. -/
theorem aggregate_header_from_first_dict_page (outs : List JValue) :
    (extractDA outs).objGet "header" = some (headerOfFirstDictPage outs) := by
  show dlookup _ "header" = _
  rw [dlookup_triple_first]
  congr 1
  rw [daLoop_fst_none]
  cases hf : outs.find? (fun o => o.isDict) with
  | none =>
      simp only [hf, Option.map_none, Option.getD, headerOfFirstDictPage]
      rfl
  | some o =>
      simp only [hf, Option.map_some, Option.getD, headerOfFirstDictPage]
      exact pyOr_jobj_nil_idem _

/-- C10: in the merge strategy, a non-object result on any page after
the first is silently skipped — the accumulator is unchanged for that
page and merging continues with the remaining pages, so the whole
extraction equals the one without that page. -/
theorem merge_skips_non_dict_later_pages (out0 bad : JValue) (pre post : List JValue)
    (hbad : bad.isDict = false) :
    extractMerge (out0 :: (pre ++ bad :: post)) = extractMerge (out0 :: (pre ++ post)) := by
  have hstep : ∀ acc : JDict, mergeStep acc bad = acc := by
    intro acc
    cases bad
    case jobj _ => simp [JValue.isDict] at hbad
    all_goals rfl
  cases out0
  case jobj d0 =>
    simp only [extractMerge]
    congr 1
    rw [List.foldl_append, List.foldl_append, List.foldl_cons]
    congr 1
    exact hstep _
  all_goals rfl

/-- Witness for C10: dropping a non-object page-2 result leaves the
merged extraction unchanged. -/
theorem merge_skips_non_dict_later_pages_witness :
    extractMerge [JValue.jobj [("a", JValue.jnum 1)], JValue.jstr "not json",
                  JValue.jobj [("b", JValue.jnum 2)]]
      = extractMerge [JValue.jobj [("a", JValue.jnum 1)],
                      JValue.jobj [("b", JValue.jnum 2)]] :=
  merge_skips_non_dict_later_pages (JValue.jobj [("a", JValue.jnum 1)])
    (JValue.jstr "not json") [] [JValue.jobj [("b", JValue.jnum 2)]] rfl

/-! ## Claim C9 -/

/-- C9: the tri-state coercion `_bool_to_int` used when storing 1099-DA
transactions maps booleans to 1/0, non-zero numbers to 1, zero to 0,
null to absent, and every other shape (string, list, object) to absent
without raising; each of the six flag columns of a stored transaction
row is exactly this coercion of the corresponding dict entry. -/
theorem bool_to_int_tristate :
    boolToInt .jnull = none
    ∧ (∀ b : Bool, boolToInt (.jbool b) = some (if b then 1 else 0))
    ∧ (∀ q : ℚ, q ≠ 0 → boolToInt (.jnum q) = some 1)
    ∧ boolToInt (.jnum 0) = some 0
    ∧ (∀ s : String, boolToInt (.jstr s) = none)
    ∧ (∀ xs : List JValue, boolToInt (.jarr xs) = none)
    ∧ (∀ fs : JDict, boolToInt (.jobj fs) = none)
    ∧ (∀ (docId : Nat) (t : JValue),
        (mkTxnRow docId t).basis_reported_to_irs = boolToInt (tget t "basis_reported_to_irs")
        ∧ (mkTxnRow docId t).qof_proceeds = boolToInt (tget t "qof_proceeds")
        ∧ (mkTxnRow docId t).loss_not_allowed = boolToInt (tget t "loss_not_allowed")
        ∧ (mkTxnRow docId t).cash_only = boolToInt (tget t "cash_only")
        ∧ (mkTxnRow docId t).customer_info_used = boolToInt (tget t "customer_info_used")
        ∧ (mkTxnRow docId t).noncovered = boolToInt (tget t "noncovered")) := by
  refine ⟨rfl, fun b => rfl, fun q hq => ?_, rfl, fun s => rfl, fun xs => rfl, fun fs => rfl,
    fun docId t => ⟨rfl, rfl, rfl, rfl, rfl, rfl⟩⟩
  simp [boolToInt, Rat.pyTruthyNum, hq]

/-- Witness for C9: the non-zero number 5 coerces to flag 1. -/
theorem bool_to_int_tristate_witness : boolToInt (.jnum 5) = some 1 :=
  bool_to_int_tristate.2.2.1 5 (by norm_num)

/-! ## Lemmas: lexicographic order and sorting -/

theorem lexLe_refl (x : List Char) : lexLe x x = true := by
  induction x with
  | nil => rfl
  | cons a as ih => simp [lexLe, ih]

theorem lexLe_total (x y : List Char) : lexLe x y = true ∨ lexLe y x = true := by
  induction x generalizing y with
  | nil => left; rfl
  | cons a as ih =>
      cases y with
      | nil => right; rfl
      | cons b bs =>
          rcases Nat.lt_trichotomy a.toNat b.toNat with h | h | h
          · left; simp [lexLe, h]
          · rcases ih bs with h2 | h2
            · left; simp [lexLe, h, h2]
            · right; simp [lexLe, h.symm, h2]
          · right; simp [lexLe, h]

theorem lexLe_trans {x y z : List Char} (h1 : lexLe x y = true) (h2 : lexLe y z = true) :
    lexLe x z = true := by
  induction x generalizing y z with
  | nil => rfl
  | cons a as ih =>
      cases y with
      | nil => simp [lexLe] at h1
      | cons b bs =>
          cases z with
          | nil => simp [lexLe] at h2
          | cons c cs =>
              simp only [lexLe] at h1 h2 ⊢
              have H1 : a.toNat < b.toNat ∨ (a.toNat = b.toNat ∧ lexLe as bs = true) := by
                by_cases hab : a.toNat < b.toNat
                · exact Or.inl hab
                · by_cases hba : b.toNat < a.toNat
                  · rw [if_neg hab, if_pos hba] at h1
                    exact absurd h1 (by simp)
                  · exact Or.inr ⟨by omega, by rwa [if_neg hab, if_neg hba] at h1⟩
              have H2 : b.toNat < c.toNat ∨ (b.toNat = c.toNat ∧ lexLe bs cs = true) := by
                by_cases hbc : b.toNat < c.toNat
                · exact Or.inl hbc
                · by_cases hcb : c.toNat < b.toNat
                  · rw [if_neg hbc, if_pos hcb] at h2
                    exact absurd h2 (by simp)
                  · exact Or.inr ⟨by omega, by rwa [if_neg hbc, if_neg hcb] at h2⟩
              rcases H1 with hab | ⟨hab, hrec1⟩ <;> rcases H2 with hbc | ⟨hbc, hrec2⟩
              · rw [if_pos (show a.toNat < c.toNat by omega)]
              · rw [if_pos (show a.toNat < c.toNat by omega)]
              · rw [if_pos (show a.toNat < c.toNat by omega)]
              · rw [if_neg (show ¬ a.toNat < c.toNat by omega),
                  if_neg (show ¬ c.toNat < a.toNat by omega)]
                exact ih hrec1 hrec2

instance : IsTotal String pyStrLe :=
  ⟨fun a b => lexLe_total a.data b.data⟩

instance : IsTrans String pyStrLe :=
  ⟨fun _ _ _ h1 h2 => lexLe_trans h1 h2⟩

theorem pyStrLe_refl (a : String) : pyStrLe a a := lexLe_refl a.data

/-- The head of a `pyStrLe`-sorted nonempty list of strings is a lower
bound for all its members. -/
theorem headI_le_of_sorted {l : List String} (hs : l.Sorted pyStrLe) (hne : l ≠ []) :
    ∀ x ∈ l, pyStrLe l.headI x := by
  cases l with
  | nil => exact absurd rfl hne
  | cons h t =>
      intro x hx
      rcases List.mem_cons.mp hx with hxe | hxt
      · exact hxe ▸ pyStrLe_refl h
      · exact (List.sorted_cons.mp hs).1 x hxt

theorem headI_mem_of_ne_nil {l : List String} (h : l ≠ []) : l.headI ∈ l := by
  cases l with
  | nil => exact absurd rfl h
  | cons a t => exact List.mem_cons_self a t

/-! ## Claim C4 -/

/-- C4: whenever at least one text signal matches, classification
returns method `"text"`; if at least two distinct form types matched and
one of them is a 1099-family type the result is `consolidated-1099` at
confidence 0.85, otherwise the lexicographically first matched form type
at confidence 0.9. -/
theorem classify_text_signals (text : String) (vision : Classification)
    (hhits : textHits text ≠ []) :
    (classify_document text vision).method = "text"
    ∧ ((2 ≤ (textHits text).dedup.length ∧
          ∃ t ∈ textHits text, ("1099-".data).isPrefixOf t.data = true) →
        (classify_document text vision).doc_type = "consolidated-1099"
          ∧ (classify_document text vision).confidence = 0.85)
    ∧ (¬(2 ≤ (textHits text).dedup.length ∧
          ∃ t ∈ textHits text, ("1099-".data).isPrefixOf t.data = true) →
        (classify_document text vision).confidence = 0.9
          ∧ (classify_document text vision).doc_type ∈ textHits text
          ∧ ∀ t ∈ textHits text, pyStrLe (classify_document text vision).doc_type t) := by
  have hne : (textHits text).isEmpty = false := List.isEmpty_eq_false.mpr hhits
  have hperm : (List.insertionSort pyStrLe (textHits text).dedup).Perm (textHits text).dedup :=
    List.perm_insertionSort _ _
  have hmem : ∀ x, x ∈ List.insertionSort pyStrLe (textHits text).dedup ↔ x ∈ textHits text :=
    fun x => (hperm.mem_iff).trans (List.mem_dedup)
  have hcond : (2 ≤ (List.insertionSort pyStrLe (textHits text).dedup).length ∧
        (List.insertionSort pyStrLe (textHits text).dedup).any
          (fun t => ("1099-".data).isPrefixOf t.data) = true)
      ↔ (2 ≤ (textHits text).dedup.length ∧
          ∃ t ∈ textHits text, ("1099-".data).isPrefixOf t.data = true) := by
    rw [hperm.length_eq, List.any_eq_true]
    constructor
    · rintro ⟨h1, t, ht, hp⟩
      exact ⟨h1, t, (hmem t).mp ht, hp⟩
    · rintro ⟨h1, t, ht, hp⟩
      exact ⟨h1, t, (hmem t).mpr ht, hp⟩
  have hu : classify_document text vision =
      (if 2 ≤ (List.insertionSort pyStrLe (textHits text).dedup).length ∧
          (List.insertionSort pyStrLe (textHits text).dedup).any
            (fun t => ("1099-".data).isPrefixOf t.data) = true then
        { doc_type := "consolidated-1099", confidence := 0.85, method := "text" }
      else
        { doc_type := (List.insertionSort pyStrLe (textHits text).dedup).headI
        , confidence := 0.9, method := "text" }) := by
    rw [classify_document]
    simp only [hne, Bool.false_eq_true, if_false]
  by_cases hC : 2 ≤ (List.insertionSort pyStrLe (textHits text).dedup).length ∧
      (List.insertionSort pyStrLe (textHits text).dedup).any
        (fun t => ("1099-".data).isPrefixOf t.data) = true
  · rw [hu, if_pos hC]
    exact ⟨rfl, fun _ => ⟨rfl, rfl⟩, fun hc => absurd (hcond.mp hC) hc⟩
  · rw [hu, if_neg hC]
    have hdne : (textHits text).dedup ≠ [] :=
      fun hnil => hhits ((List.dedup_eq_nil (textHits text)).mp hnil)
    have hune : List.insertionSort pyStrLe (textHits text).dedup ≠ [] := by
      intro hnil
      apply hdne
      have hlen := hperm.length_eq
      rw [hnil] at hlen
      exact List.length_eq_zero.mp hlen.symm
    have hsorted : (List.insertionSort pyStrLe (textHits text).dedup).Sorted pyStrLe :=
      List.sorted_insertionSort pyStrLe _
    refine ⟨rfl, fun hc => absurd hc (fun hcc => hC (hcond.mpr hcc)), fun _ => ⟨rfl, ?_, ?_⟩⟩
    · exact (hmem _).mp (headI_mem_of_ne_nil hune)
    · intro t ht
      exact headI_le_of_sorted hsorted hune t ((hmem t).mpr ht)

/-- Text containing both a 1099-NEC and a 1099-INT signal. -/
def c4Text : String := "Includes Form 1099-NEC and Form 1099-INT details"

/-- Witness for C4: on text matching the 1099-NEC and 1099-INT signals
the classifier reports `consolidated-1099` at confidence 0.85. -/
theorem classify_text_signals_witness :
    (classify_document c4Text ⟨"unknown", 0.5, "vision"⟩).doc_type = "consolidated-1099"
    ∧ (classify_document c4Text ⟨"unknown", 0.5, "vision"⟩).confidence = 0.85 :=
  (classify_text_signals c4Text ⟨"unknown", 0.5, "vision"⟩
      (by simp [show textHits c4Text = ["1099-NEC", "1099-INT"] from rfl])).2.1
    (by
      refine ⟨?_, "1099-NEC", ?_, rfl⟩ <;>
        simp [show textHits c4Text = ["1099-NEC", "1099-INT"] from rfl])

/-! ## Lemmas: Python string stripping (src/ai.py) -/

theorem dropWhile_eq_nil_of_all {p : Char → Bool} {l : List Char}
    (h : ∀ c ∈ l, p c = true) : l.dropWhile p = [] := by
  induction l with
  | nil => rfl
  | cons c cs ih =>
      rw [List.dropWhile_cons, if_pos (h c (by simp))]
      exact ih (fun x hx => h x (by simp [hx]))

theorem pyLstrip_ws_append {ws l : List Char} (h : ∀ c ∈ ws, isPyWS c = true) :
    pyLstrip (ws ++ l) = pyLstrip l := by
  unfold pyLstrip
  rw [List.dropWhile_append, dropWhile_eq_nil_of_all h]
  simp

theorem pyLstrip_cons_of_not_ws {c : Char} (l : List Char) (h : isPyWS c = false) :
    pyLstrip (c :: l) = c :: l := by
  unfold pyLstrip
  rw [List.dropWhile_cons, if_neg (by simp [h])]

theorem pyRstrip_append_ws {l ws : List Char} (h : ∀ c ∈ ws, isPyWS c = true) :
    pyRstrip (l ++ ws) = pyRstrip l := by
  unfold pyRstrip
  rw [List.reverse_append, List.dropWhile_append,
    dropWhile_eq_nil_of_all (fun c hc => h c (List.mem_reverse.mp hc))]
  simp

theorem pyRstrip_append_last_not_ws {l : List Char} {c : Char} (h : isPyWS c = false) :
    pyRstrip (l ++ [c]) = l ++ [c] := by
  unfold pyRstrip
  rw [List.reverse_append, List.reverse_singleton, List.singleton_append,
    List.dropWhile_cons, if_neg (by simp [h])]
  simp

theorem pyRstrip_ne_nil_append {a v : List Char} (h : pyRstrip v ≠ []) :
    pyRstrip (a ++ v) = a ++ pyRstrip v := by
  have hd : v.reverse.dropWhile isPyWS ≠ [] := by
    intro hnil
    apply h
    unfold pyRstrip
    rw [hnil]
    rfl
  unfold pyRstrip
  rw [List.reverse_append, List.dropWhile_append,
    if_neg (by simpa [List.isEmpty_iff] using hd)]
  simp [pyRstrip]

theorem dropWhile_idem (p : Char → Bool) (l : List Char) :
    (l.dropWhile p).dropWhile p = l.dropWhile p := by
  induction l with
  | nil => rfl
  | cons c cs ih =>
      by_cases h : p c
      · rw [List.dropWhile_cons, if_pos h, ih]
      · rw [List.dropWhile_cons, if_neg h, List.dropWhile_cons, if_neg h]

theorem pyRstrip_idem (l : List Char) : pyRstrip (pyRstrip l) = pyRstrip l := by
  unfold pyRstrip
  rw [List.reverse_reverse, dropWhile_idem]

theorem pyStrip_pyRstrip (l : List Char) : pyStrip (pyRstrip l) = pyStrip l := by
  unfold pyStrip
  rw [pyRstrip_idem]

theorem pyStrip_append_ws {l ws : List Char} (h : ∀ c ∈ ws, isPyWS c = true) :
    pyStrip (l ++ ws) = pyStrip l := by
  unfold pyStrip
  rw [pyRstrip_append_ws h]

theorem pyStrip_ne_nil_rstrip {v : List Char} (h : pyStrip v ≠ []) : pyRstrip v ≠ [] := by
  intro hnil
  apply h
  unfold pyStrip
  rw [hnil]
  rfl

theorem afterFirstNewline_fence_line {a b : List Char} (h : '\n' ∉ a) :
    afterFirstNewline (a ++ '\n' :: b) = b := by
  unfold afterFirstNewline
  rw [if_pos (by simp), List.dropWhile_append,
    dropWhile_eq_nil_of_all (fun c hc => by
      simp only [bne_iff_ne, ne_eq, decide_eq_true_eq]
      intro hc2
      exact h (hc2 ▸ hc))]
  simp [List.dropWhile_cons]

theorem fence_isPrefixOf_append (rest : List Char) :
    fenceMark.isPrefixOf (fenceMark ++ rest) = true :=
  List.isPrefixOf_iff_prefix.mpr (List.prefix_append _ _)

theorem fence_isSuffixOf_trailing (v : List Char) :
    fenceMark.isSuffixOf (v ++ '\n' :: fenceMark) = true :=
  List.isSuffixOf_iff_suffix.mpr (by
    refine ⟨v ++ ['\n'], ?_⟩
    simp)

theorem beforeLastFence_trailing (v : List Char) :
    beforeLastFence (v ++ '\n' :: fenceMark) = v ++ ['\n'] := by
  unfold beforeLastFence
  have hrev : (v ++ '\n' :: fenceMark).reverse = btick :: btick :: btick :: ('\n' :: v.reverse) := by
    show (v ++ '\n' :: [btick, btick, btick]).reverse = _
    simp
  rw [hrev]
  rw [show afterFence (btick :: btick :: btick :: ('\n' :: v.reverse))
      = some ('\n' :: v.reverse) by
    unfold afterFence
    rw [if_pos ⟨rfl, rfl, rfl⟩]]
  simp

/-! ## Claim C7 -/

/-- C7: a model-gateway response that wraps a JSON text in a fenced code
block — optional surrounding whitespace, a leading fence line, and (when
`hasTrail` is set) a trailing fence — normalizes to exactly the same
text as the bare response, and hence parses to exactly the same
structured value.  The hypotheses on `v` hold for every JSON text: it is
not all whitespace, does not begin with a fence, and does not end with
backticks. -/
theorem gateway_fenced_response_parses_same
    (parse : List Char → Option JValue)
    (v ws1 ws2 lang : List Char) (hasTrail : Bool)
    (hws1 : ∀ c ∈ ws1, isPyWS c = true)
    (hws2 : ∀ c ∈ ws2, isPyWS c = true)
    (hlang : '\n' ∉ lang)
    (hvne : pyStrip v ≠ [])
    (hvpre : fenceMark.isPrefixOf (pyStrip v) = false)
    (hvsuf : fenceMark.isSuffixOf (pyRstrip v) = false) :
    normalizeResponse (ws1 ++ fenceMark ++ lang ++ '\n' ::
        (v ++ (if hasTrail then '\n' :: fenceMark ++ ws2 else ws2)))
      = normalizeResponse v
    ∧ parse (normalizeResponse (ws1 ++ fenceMark ++ lang ++ '\n' ::
        (v ++ (if hasTrail then '\n' :: fenceMark ++ ws2 else ws2))))
      = parse (normalizeResponse v) := by
  have hbare : normalizeResponse v = pyStrip v := by
    unfold normalizeResponse
    rw [if_neg (by simp [hvpre])]
  have hnlWS : isPyWS '\n' = true := rfl
  have hfenceNoNl : ('\n' : Char) ∉ fenceMark ++ lang := by
    intro hmem
    rcases List.mem_append.mp hmem with hf | hl
    · simp [fenceMark, btick] at hf
    · exact hlang hl
  suffices hmain : normalizeResponse (ws1 ++ fenceMark ++ lang ++ '\n' ::
      (v ++ (if hasTrail then '\n' :: fenceMark ++ ws2 else ws2)))
      = normalizeResponse v from ⟨hmain, congrArg parse hmain⟩
  cases hasTrail with
  | true =>
      rw [if_pos rfl]
      have hW : ws1 ++ fenceMark ++ lang ++ '\n' :: (v ++ ('\n' :: fenceMark ++ ws2))
          = (ws1 ++ (fenceMark ++ lang ++ '\n' :: (v ++ '\n' :: fenceMark))) ++ ws2 := by
        simp
      have hstrip : pyStrip (ws1 ++ fenceMark ++ lang ++ '\n' :: (v ++ ('\n' :: fenceMark ++ ws2)))
          = fenceMark ++ lang ++ '\n' :: (v ++ '\n' :: fenceMark) := by
        rw [hW, pyStrip_append_ws hws2]
        unfold pyStrip
        have hend : ws1 ++ (fenceMark ++ lang ++ '\n' :: (v ++ '\n' :: fenceMark))
            = (ws1 ++ (fenceMark ++ lang ++ '\n' :: (v ++ '\n' :: [btick, btick]))) ++ [btick] := by
          show ws1 ++ (fenceMark ++ lang ++ '\n' :: (v ++ '\n' :: [btick, btick, btick])) = _
          simp
        rw [hend, pyRstrip_append_last_not_ws (show isPyWS btick = false from rfl), ← hend]
        rw [show ws1 ++ (fenceMark ++ lang ++ '\n' :: (v ++ '\n' :: fenceMark))
            = ws1 ++ (btick :: ([btick, btick] ++ (lang ++ '\n' :: (v ++ '\n' :: fenceMark)))) from by
          simp [fenceMark]]
        rw [pyLstrip_ws_append hws1,
          pyLstrip_cons_of_not_ws _ (show isPyWS btick = false from rfl)]
        simp [fenceMark]
      have hpre : fenceMark.isPrefixOf
          (fenceMark ++ lang ++ '\n' :: (v ++ '\n' :: fenceMark)) = true := by
        rw [List.append_assoc]
        exact fence_isPrefixOf_append _
      rw [normalizeResponse, hstrip]
      rw [if_pos hpre]
      rw [afterFirstNewline_fence_line hfenceNoNl]
      show pyStrip (if fenceMark.isSuffixOf (v ++ '\n' :: fenceMark) = true
          then beforeLastFence (v ++ '\n' :: fenceMark)
          else v ++ '\n' :: fenceMark) = normalizeResponse v
      rw [if_pos (fence_isSuffixOf_trailing v), beforeLastFence_trailing,
        @pyStrip_append_ws v ['\n'] (by simp [hnlWS]), hbare]
  | false =>
      rw [if_neg (by simp)]
      have hW : ws1 ++ fenceMark ++ lang ++ '\n' :: (v ++ ws2)
          = ((ws1 ++ (fenceMark ++ lang ++ ['\n'])) ++ v) ++ ws2 := by
        simp
      have hrv : pyRstrip v ≠ [] := pyStrip_ne_nil_rstrip hvne
      have hstrip : pyStrip (ws1 ++ fenceMark ++ lang ++ '\n' :: (v ++ ws2))
          = fenceMark ++ lang ++ '\n' :: pyRstrip v := by
        rw [hW, pyStrip_append_ws hws2]
        unfold pyStrip
        rw [pyRstrip_ne_nil_append hrv]
        rw [show (ws1 ++ (fenceMark ++ lang ++ ['\n'])) ++ pyRstrip v
            = ws1 ++ (btick :: ([btick, btick] ++ (lang ++ ['\n'] ++ pyRstrip v))) from by
          simp [fenceMark]]
        rw [pyLstrip_ws_append hws1,
          pyLstrip_cons_of_not_ws _ (show isPyWS btick = false from rfl)]
        simp [fenceMark]
      have hpre : fenceMark.isPrefixOf
          (fenceMark ++ lang ++ '\n' :: pyRstrip v) = true := by
        rw [List.append_assoc]
        exact fence_isPrefixOf_append _
      rw [normalizeResponse, hstrip]
      rw [if_pos hpre]
      rw [afterFirstNewline_fence_line hfenceNoNl]
      show pyStrip (if fenceMark.isSuffixOf (pyRstrip v) = true
          then beforeLastFence (pyRstrip v)
          else pyRstrip v) = normalizeResponse v
      rw [if_neg (by simp [hvsuf]), pyStrip_pyRstrip, hbare]

/-- Witness for C7: the JSON text `[1, 2]` wrapped as
` ```json\n[1, 2]\n```\n ` normalizes to the same text as bare `[1, 2]`. -/
theorem gateway_fenced_response_parses_same_witness :
    normalizeResponse (" ".data ++ fenceMark ++ "json".data ++ '\n' ::
        ("[1, 2]".data ++ ('\n' :: fenceMark ++ "\n".data)))
      = normalizeResponse "[1, 2]".data :=
  (gateway_fenced_response_parses_same (fun _ => none) "[1, 2]".data " ".data "\n".data
    "json".data true (by decide) (by decide) (by decide) (by decide) (by decide)
    (by decide)).1

/-! ## Claim C6 -/

/-- A concrete document owning one row in each child table. -/
def c6Doc : DocRec := { id := 1, file_hash := "h1" }

def c6Ext : ExtRec := { id := 2, document_id := 1, form_type := "1099-DA", raw_json := .jobj [] }

def c6Txn : TxnRec := { document_id := 1 }

def c6Fld : FieldRec :=
  { document_id := 1, field_path := "header.payer_name", field_value := some "X" }

def c6St : St :=
  { clock := 3, documents := [c6Doc], extractions := [c6Ext], txns := [c6Txn], fields := [c6Fld] }

/-- C6 (code bug): `delete_document` removes the document, its
extraction records and its transactions, but issues no `DELETE` against
`extracted_fields`, so the document's flattened-field row survives the
deletion and remains queryable by document id. -/
theorem delete_document_leaves_flattened_fields :
    (delete_document c6St 1).documents = []
    ∧ (delete_document c6St 1).extractions = []
    ∧ (delete_document c6St 1).txns = []
    ∧ (delete_document c6St 1).fields = [c6Fld]
    ∧ (delete_document c6St 1).fields.filter (fun f => f.document_id == 1) = [c6Fld] :=
  ⟨rfl, rfl, rfl, rfl, rfl⟩

/-! ## Claim C8 -/

/-- A document with zero flattened fields. -/
def c8Doc : DocRec := { id := 1, file_hash := "h8" }

/-- A store holding only `c8Doc`, with no flattened fields. -/
def c8St : St := { clock := 2, documents := [c8Doc] }

/-- C8 counterexample: the single-document long CSV export of a
zero-field document emits only the header row — not the one empty-field
data row the claim asserts. -/
theorem csv_long_single_doc_zero_fields_no_row :
    export_doc_csv_long c8St 1 = .ok [csvLongHeader]
    ∧ (Except.ok [csvLongHeader] : Except String (List (List Cell)))
        ≠ Except.ok (csvLongHeader ::
            [docRowCells c8Doc ++ [Cell.s "", Cell.s "", Cell.s ""]]) :=
  ⟨rfl, by simp⟩

/-- C8 amended: both long CSV exports emit one data row per
(document, flattened field) pair, but only the all-documents export
emits a fallback row with empty field columns for a zero-field
document; the single-document export emits no data row at all for such
a document. -/
theorem csv_long_rows_per_field :
    (∀ (st : St) (docId : Nat) (doc : DocRec),
        st.documents.find? (fun d => d.id == docId) = some doc →
        ∃ rows, export_doc_csv_long st docId = .ok (csvLongHeader :: rows)
          ∧ rows.length = (st.fields.filter (fun f => f.document_id == docId)).length)
    ∧ (∀ st : St, (export_all_csv_long st).length
        = 1 + (st.documents.map
            (fun d => max 1 (st.fields.filter (fun f => f.document_id == d.id)).length)).sum)
    ∧ (∀ (st : St) (d : DocRec), d ∈ st.documents →
        st.fields.filter (fun f => f.document_id == d.id) = [] →
        docRowCells d ++ [Cell.s "", Cell.s "", Cell.s ""] ∈ export_all_csv_long st) := by
  refine ⟨?_, ?_, ?_⟩
  · intro st docId doc h
    refine ⟨(sortFieldsByPath (st.fields.filter (fun f => f.document_id == docId))).map
      (fieldRow doc), ?_, ?_⟩
    · simp only [export_doc_csv_long, h]
    · rw [List.length_map]
      exact (List.perm_insertionSort _ _).length_eq
  · intro st
    simp only [export_all_csv_long, List.length_cons, List.length_flatMap]
    have hper : ∀ d : DocRec,
        (List.length ∘ fun d =>
          let rows := sortFieldsByPath (st.fields.filter (fun f => f.document_id == d.id))
          if rows.isEmpty then [docRowCells d ++ [Cell.s "", Cell.s "", Cell.s ""]]
          else rows.map (fieldRow d)) d
        = max 1 (st.fields.filter (fun f => f.document_id == d.id)).length := by
      intro d
      simp only [Function.comp]
      by_cases hempty :
          (sortFieldsByPath (st.fields.filter (fun f => f.document_id == d.id))).isEmpty
      · have hnil : sortFieldsByPath (st.fields.filter (fun f => f.document_id == d.id)) = [] :=
          List.isEmpty_iff.mp hempty
        have hlen : (sortFieldsByPath (st.fields.filter (fun f => f.document_id == d.id))).length
            = (st.fields.filter (fun f => f.document_id == d.id)).length :=
          (List.perm_insertionSort _ _).length_eq
        rw [hnil] at hlen
        simp [hempty, ← hlen]
      · have hlen : (sortFieldsByPath (st.fields.filter (fun f => f.document_id == d.id))).length
            = (st.fields.filter (fun f => f.document_id == d.id)).length :=
          (List.perm_insertionSort _ _).length_eq
        have hpos : 0 < (st.fields.filter (fun f => f.document_id == d.id)).length := by
          rw [← hlen]
          cases hc : sortFieldsByPath (st.fields.filter (fun f => f.document_id == d.id)) with
          | nil => rw [hc] at hempty; exact absurd rfl hempty
          | cons a t => simp
        simp only [hempty, if_false, Bool.false_eq_true, List.length_map, hlen]
        omega
    rw [List.map_congr_left (fun d _ => hper d)]
    have hperm2 : (sortDocsByCreatedDesc st.documents).Perm st.documents :=
      List.perm_insertionSort _ _
    rw [(hperm2.map _).sum_eq]
    omega
  · intro st d hd hfe
    apply List.mem_cons_of_mem
    apply List.mem_flatMap.mpr
    refine ⟨d, (List.perm_insertionSort _ _).mem_iff.mpr hd, ?_⟩
    have : sortFieldsByPath (st.fields.filter (fun f => f.document_id == d.id)) = [] := by
      rw [hfe]
      rfl
    simp [this]

/-- A flattened field owned by `c8Doc`. -/
def c8WFld : FieldRec := { document_id := 1, field_path := "payer_name", field_value := some "P" }

/-- A store holding `c8Doc` with one flattened field. -/
def c8WSt : St := { clock := 2, documents := [c8Doc], fields := [c8WFld] }

/-- Witness for the amended C8 at a one-document, one-field store. -/
theorem csv_long_rows_per_field_witness :
    ∃ rows, export_doc_csv_long c8WSt 1 = .ok (csvLongHeader :: rows)
      ∧ rows.length = (c8WSt.fields.filter (fun f => f.document_id == 1)).length :=
  csv_long_rows_per_field.1 c8WSt 1 c8Doc rfl

/-! ## Lemmas: the upload flow (C1) -/

/-- The document row a non-dedup upload inserts. -/
def uploadNewDoc (p : Pipeline) (st : St) (fileBytes : List Nat) (filename : String) : DocRec :=
  newDocRecord st (ingest_file p.hashFn fileBytes filename).1
    (ingest_file p.hashFn fileBytes filename).2.1
    (ingest_file p.hashFn fileBytes filename).2.2
    (p.classify (ingest_file p.hashFn fileBytes filename).1).doc_type
    (p.pageCount (ingest_file p.hashFn fileBytes filename).1)
    (p.classify (ingest_file p.hashFn fileBytes filename).1).confidence

theorem find?_hash_map (docs : List DocRec) (F : DocRec → DocRec) (h : String)
    (hF : ∀ d, (F d).file_hash = d.file_hash) :
    (docs.map F).find? (fun d => d.file_hash == h)
      = (docs.find? (fun d => d.file_hash == h)).map F := by
  rw [List.find?_map]
  have hp : ((fun d : DocRec => d.file_hash == h) ∘ F) = (fun d : DocRec => d.file_hash == h) :=
    funext fun d => by simp [Function.comp, hF d]
  rw [hp]

theorem filter_hash_map (docs : List DocRec) (F : DocRec → DocRec) (h : String)
    (hF : ∀ d, (F d).file_hash = d.file_hash) :
    (docs.map F).filter (fun d => d.file_hash == h)
      = (docs.filter (fun d => d.file_hash == h)).map F := by
  rw [List.filter_map]
  have hp : ((fun d : DocRec => d.file_hash == h) ∘ F) = (fun d : DocRec => d.file_hash == h) :=
    funext fun d => by simp [Function.comp, hF d]
  rw [hp]

theorem documents_store_1099da (st : St) (docId : Nat) (ext : JValue) :
    (store_1099da_transactions st docId ext).documents = st.documents := by
  unfold store_1099da_transactions
  cases (tget ext "transactions").pyOr (.jarr []) <;> rfl

/-- The documents table of `st` is `base` with each row rewritten by
some hash- and id-preserving function: the invariant every
post-insert step of the upload flow maintains. -/
def DocsShape (base : List DocRec) (st : St) : Prop :=
  ∃ F : DocRec → DocRec,
    (∀ d, (F d).file_hash = d.file_hash) ∧ (∀ d, (F d).id = d.id)
    ∧ st.documents = base.map F

theorem DocsShape.of_documents_eq {base : List DocRec} {st : St}
    (h : st.documents = base) : DocsShape base st :=
  ⟨id, fun _ => rfl, fun _ => rfl, by simpa using h⟩

theorem DocsShape.same_documents {base : List DocRec} {st st' : St}
    (h : st'.documents = st.documents) (H : DocsShape base st) : DocsShape base st' := by
  obtain ⟨F, h1, h2, h3⟩ := H
  exact ⟨F, h1, h2, h ▸ h3⟩

theorem DocsShape.updateDoc {base : List DocRec} {st : St} (i : Nat) (g : DocRec → DocRec)
    (hg_hash : ∀ d, (g d).file_hash = d.file_hash) (hg_id : ∀ d, (g d).id = d.id)
    (H : DocsShape base st) : DocsShape base (updateDoc st i g) := by
  obtain ⟨F, h1, h2, h3⟩ := H
  refine ⟨(fun d => if d.id = i then g d else d) ∘ F, ?_, ?_, ?_⟩
  · intro d
    show (if (F d).id = i then g (F d) else F d).file_hash = d.file_hash
    by_cases hd : (F d).id = i
    · rw [if_pos hd, hg_hash, h1]
    · rw [if_neg hd, h1]
  · intro d
    show (if (F d).id = i then g (F d) else F d).id = d.id
    by_cases hd : (F d).id = i
    · rw [if_pos hd, hg_id, h2]
    · rw [if_neg hd, h2]
  · show (st.documents.map _) = _
    rw [h3, List.map_map]

theorem DocsShape.mark_needs_review {base : List DocRec} {st : St} (i : Nat) (msg : String)
    (H : DocsShape base st) : DocsShape base (mark_needs_review st i msg) :=
  H.updateDoc i _ (fun _ => rfl) (fun _ => rfl)

theorem DocsShape.mark_processed {base : List DocRec} {st : St} (i : Nat) (o : ℚ) (nr : Bool)
    (H : DocsShape base st) : DocsShape base (mark_processed st i o nr) :=
  H.updateDoc i _ (fun _ => rfl) (fun _ => rfl)

theorem DocsShape.updateIdentityFields {base : List DocRec} {st : St} (i : Nat) (x : JValue)
    (o : ℚ) (nr : Bool) (H : DocsShape base st) :
    DocsShape base (updateIdentityFields st i x o nr) := by
  cases x with
  | jobj fs => exact H.updateDoc i _ (fun _ => rfl) (fun _ => rfl)
  | jnull => exact H
  | jbool b => exact H
  | jnum q => exact H
  | jstr sv => exact H
  | jarr xs => exact H

theorem DocsShape.store_1099da {base : List DocRec} {st : St} (i : Nat) (x : JValue)
    (H : DocsShape base st) : DocsShape base (store_1099da_transactions st i x) :=
  H.same_documents (documents_store_1099da st i x)

theorem DocsShape.store_raw {base : List DocRec} {st : St} (i : Nat) (ft : String)
    (x : JValue) (c : Option ℚ) (H : DocsShape base st) :
    DocsShape base (store_raw_extraction st i ft x c) :=
  H.same_documents rfl

theorem DocsShape.store_fields {base : List DocRec} {st : St} (p : Pipeline) (i : Nat)
    (x : JValue) (H : DocsShape base st) :
    DocsShape base (store_extracted_fields p st i x) :=
  H.same_documents rfl

theorem DocsShape.ite_store_1099da {base : List DocRec} {st : St} (c : Prop) [Decidable c]
    (i : Nat) (x : JValue) (H : DocsShape base st) :
    DocsShape base (if c then store_1099da_transactions st i x else st) := by
  by_cases hc : c
  · rw [if_pos hc]
    exact H.store_1099da i x
  · rw [if_neg hc]
    exact H

/-- Shape of a non-dedup upload: the returned id is the pre-upload
clock, and the documents table is the old rows plus the fresh row, all
rewritten hash- and id-preservingly by the later status updates. -/
theorem upload_miss_shape (p : Pipeline) (st0 : St) (bytes : List Nat) (fn : String)
    (hfresh : get_document_by_hash st0 (p.hashFn bytes) = none) :
    DocsShape (st0.documents ++ [uploadNewDoc p st0 bytes fn]) (upload p st0 bytes fn).1
    ∧ (upload p st0 bytes fn).2 = st0.clock := by
  have hup : upload p st0 bytes fn = uploadMiss p st0 bytes fn := by
    unfold upload
    rw [show get_document_by_hash st0 (ingest_file p.hashFn bytes fn).2.1 = none from hfresh]
  rw [hup]
  simp only [uploadMiss]
  have hbase : DocsShape (st0.documents ++ [uploadNewDoc p st0 bytes fn])
      (create_document_record st0 (ingest_file p.hashFn bytes fn).1
        (ingest_file p.hashFn bytes fn).2.1 (ingest_file p.hashFn bytes fn).2.2
        (p.classify (ingest_file p.hashFn bytes fn).1).doc_type
        (p.pageCount (ingest_file p.hashFn bytes fn).1)
        (p.classify (ingest_file p.hashFn bytes fn).1).confidence).1 :=
    DocsShape.of_documents_eq rfl
  cases hE : p.extract (ingest_file p.hashFn bytes fn).1
      (p.classify (ingest_file p.hashFn bytes fn).1).doc_type with
  | error e =>
      exact ⟨hbase.mark_needs_review _ _, rfl⟩
  | ok extracted =>
      refine ⟨?_, rfl⟩
      show DocsShape (st0.documents ++ [uploadNewDoc p st0 bytes fn])
        (mark_processed (updateIdentityFields _ _ extracted _ _) _ _ _)
      exact (((((hbase.store_raw _ _ extracted _).store_fields p _
        extracted).ite_store_1099da
        ((p.classify (ingest_file p.hashFn bytes fn).1).doc_type = "1099-DA"
          ∧ extracted.isDict = true)
        _ _).updateIdentityFields _ _ _ _).mark_processed _ _ _)

/-! ## Claim C1 -/

/-- C1: uploading bytes identical to an already-ingested document
resolves to the existing record — the second upload returns the same
document id and leaves the store untouched (no new Document, Extraction
Record, Transaction or Flattened Field rows), and exactly one document
row carries that content hash. -/
theorem upload_dedup_resolves_to_existing (p : Pipeline) (st0 : St) (bytes : List Nat)
    (fn1 fn2 : String)
    (hfresh : get_document_by_hash st0 (p.hashFn bytes) = none) :
    (upload p (upload p st0 bytes fn1).1 bytes fn2).1 = (upload p st0 bytes fn1).1
    ∧ (upload p (upload p st0 bytes fn1).1 bytes fn2).2 = (upload p st0 bytes fn1).2
    ∧ ((upload p st0 bytes fn1).1.documents.filter
        (fun d => d.file_hash == p.hashFn bytes)).length = 1 := by
  obtain ⟨⟨F, hFh, hFi, hdocs⟩, hid⟩ := upload_miss_shape p st0 bytes fn1 hfresh
  have hnd_hash : (uploadNewDoc p st0 bytes fn1).file_hash = p.hashFn bytes := rfl
  have hnd_id : (uploadNewDoc p st0 bytes fn1).id = st0.clock := rfl
  have hfresh' : st0.documents.find? (fun d => d.file_hash == p.hashFn bytes) = none := hfresh
  have hfind : get_document_by_hash (upload p st0 bytes fn1).1 (p.hashFn bytes)
      = some (F (uploadNewDoc p st0 bytes fn1)) := by
    unfold get_document_by_hash
    rw [hdocs, find?_hash_map _ _ _ hFh, List.find?_append, hfresh']
    rw [show List.find? (fun d => d.file_hash == p.hashFn bytes) [uploadNewDoc p st0 bytes fn1]
        = some (uploadNewDoc p st0 bytes fn1) from by
      rw [List.find?_cons_of_pos]
      simp [hnd_hash]]
    rfl
  have h2 : upload p (upload p st0 bytes fn1).1 bytes fn2
      = ((upload p st0 bytes fn1).1, (F (uploadNewDoc p st0 bytes fn1)).id) := by
    conv_lhs => rw [upload]
    rw [show get_document_by_hash (upload p st0 bytes fn1).1
        (ingest_file p.hashFn bytes fn2).2.1 = some (F (uploadNewDoc p st0 bytes fn1)) from
      hfind]
  refine ⟨?_, ?_, ?_⟩
  · rw [h2]
  · rw [h2, hid]
    exact (hFi _).trans hnd_id
  · rw [hdocs, filter_hash_map _ _ _ hFh, List.filter_append,
      List.filter_eq_nil_iff.mpr (List.find?_eq_none.mp hfresh')]
    rw [show List.filter (fun d => d.file_hash == p.hashFn bytes) [uploadNewDoc p st0 bytes fn1]
        = [uploadNewDoc p st0 bytes fn1] from by
      simp [List.filter, hnd_hash]]
    simp

/-- A concrete pipeline: constant-page classifier and a fixed W-2
extraction. -/
def c1Pipe : Pipeline :=
  { hashFn := fun bs => String.mk (bs.map Char.ofNat)
  , pageCount := fun _ => 1
  , classify := fun _ => ⟨"W-2", 0.9, "text"⟩
  , extract := fun _ _ => .ok (.jobj [("wages", .jstr "100.00")])
  , flatten := fun _ => [("wages", some "100.00", none)]
  , missingRequired := fun _ _ => []
  , overallConfidence := fun _ _ c => c
  , needsReview := fun _ _ m => !m.isEmpty }

/-- Witness for C1: uploading the same bytes twice into an empty store
returns the same document id the second time, changes nothing, and
leaves exactly one row with that content hash. -/
theorem upload_dedup_resolves_to_existing_witness :
    (upload c1Pipe (upload c1Pipe {} [72, 105] "w2.pdf").1 [72, 105] "w2-copy.pdf").1
        = (upload c1Pipe {} [72, 105] "w2.pdf").1
    ∧ (upload c1Pipe (upload c1Pipe {} [72, 105] "w2.pdf").1 [72, 105] "w2-copy.pdf").2
        = (upload c1Pipe {} [72, 105] "w2.pdf").2
    ∧ ((upload c1Pipe {} [72, 105] "w2.pdf").1.documents.filter
        (fun d => d.file_hash == c1Pipe.hashFn [72, 105])).length = 1 :=
  upload_dedup_resolves_to_existing c1Pipe {} [72, 105] "w2.pdf" "w2-copy.pdf" rfl
